import Mathlib

/-!
# Verification of the ditherworks conversion core

Shallow embedding of the crop-geometry math, the face-aware crop-suggestion
algorithm, the conversion job runner with its concurrency limiter, the
manifest validation, and the per-job progress channel of the repository,
together with theorems settling the specification claims about them.

Machine numbers are modelled with `Nat`/`Int` exact arithmetic.  The constant
`TARGET_ASPECT = 800 / 480` is a double slightly above the rational `5 / 3`
(by `(1/3)·2^-52`); for every dimension below `10^15` the floating-point
`Math.round`/`Math.floor` of `w / TARGET_ASPECT` and `h * TARGET_ASPECT`
agree with the exact-rational values used here, so the embedding is faithful
on the whole realistic input range.
-/

namespace DitherWorks

/-- `Math.round(w / TARGET_ASPECT)` from `server/src/lib/image.ts`
(`cropHeight = Math.round(naturalWidth / TARGET_ASPECT)`), with
`TARGET_ASPECT = 800/480 = 5/3`: `round(3w/5) = ⌊(6w+5)/10⌋`. -/
def cropHeightRound (w : Nat) : Nat := (6 * w + 5) / 10

/-- `Math.floor(naturalWidth / TARGET_ASPECT)` from the safe variant of
`convertToBmp565WithDither` (`src/unnamed/part_003`): `⌊3w/5⌋`. -/
def cropHeightFloor (w : Nat) : Nat := 3 * w / 5

/-- `Math.floor(naturalHeight * TARGET_ASPECT)` from the fallback branch of
`src/unnamed/part_003`: `⌊5h/3⌋`. -/
def aspectWidthFloor (h : Nat) : Nat := 5 * h / 3

/-- `Math.round(naturalHeight * TARGET_ASPECT)`, i.e. `round(5h/3) = ⌊(10h+3)/6⌋`.
This is the width formula the specification states for the degenerate-aspect
fallback; the source uses `aspectWidthFloor` instead. -/
def aspectWidthRound (h : Nat) : Nat := (10 * h + 3) / 6

/-- The crop window computed by `convertToBmp565WithDither` in
`server/src/lib/image.ts` (lines 33-40). -/
structure CropWindow where
  left : Nat
  top : Nat
  width : Nat
  height : Nat
  maxY : Nat
  deriving Repr, DecidableEq

/-- Crop-window computation of `server/src/lib/image.ts`, lines 33-40:

  cropHeight = Math.round(naturalWidth / TARGET_ASPECT)
  maxY = Math.max(0, naturalHeight - cropHeight)
  top = Math.max(0, Math.min(cropY, maxY))
  extract { left: 0, top, width: naturalWidth, height: cropHeight }

`Nat` subtraction truncates at zero exactly like `Math.max(0, a - b)`, and
`Int.toNat` realises the outer `Math.max(0, ·)` of the clamp.  This variant
has no branch: the same rectangle is used even when `cropHeight` exceeds
`naturalHeight`. -/
def computeCropWindow (naturalWidth naturalHeight : Nat) (cropY : Int) : CropWindow :=
  let cropHeight := cropHeightRound naturalWidth
  let maxY := naturalHeight - cropHeight
  let top := (min cropY (maxY : Int)).toNat
  { left := 0, top := top, width := naturalWidth, height := cropHeight, maxY := maxY }

/-- The extraction rectangle passed to `sharp.extract` by the safe variant of
`convertToBmp565WithDither` (`src/unnamed/part_003`, lines 36-57). -/
structure ExtractRect where
  left : Nat
  top : Nat
  width : Nat
  height : Nat
  deriving Repr, DecidableEq

/-- Crop-rectangle computation of `src/unnamed/part_003`, lines 36-54:

  fullWidthCropHeight = Math.floor(naturalWidth / TARGET_ASPECT)
  if fullWidthCropHeight <= naturalHeight:
    height = fullWidthCropHeight
    maxTop = Math.max(0, naturalHeight - height)
    top = Math.max(0, Math.min(Math.floor(cropY), maxTop)); left = 0; width = naturalWidth
  else:
    height = naturalHeight
    width = Math.floor(naturalHeight * TARGET_ASPECT)
    left = Math.max(0, Math.floor((naturalWidth - width) / 2)); top = 0

`cropY` is modelled as an integer, so the code's `Math.floor(cropY)` is the
identity.  In the fallback branch `Nat` subtraction and division reproduce
`Math.max(0, Math.floor((naturalWidth - width) / 2))`. -/
def computeCropWindowSafe (naturalWidth naturalHeight : Nat) (cropY : Int) : ExtractRect :=
  let fullWidthCropHeight := cropHeightFloor naturalWidth
  if fullWidthCropHeight ≤ naturalHeight then
    let maxTop := naturalHeight - fullWidthCropHeight
    let top := (min cropY (maxTop : Int)).toNat
    { left := 0, top := top, width := naturalWidth, height := fullWidthCropHeight }
  else
    let w := aspectWidthFloor naturalHeight
    { left := (naturalWidth - w) / 2, top := 0, width := w, height := naturalHeight }

/-- C1: when `cropHeight = round(naturalWidth / targetAspect)` is at most
`naturalHeight`, the crop-window computation of `server/src/lib/image.ts`
returns `left = 0`, `width = naturalWidth`, `height = cropHeight`,
`maxY = max(0, naturalHeight - cropHeight)` and
`top = clamp(requestedY, 0, maxY)`, so `top` lies in `[0, maxY]`. -/
theorem computeCropWindow_fullWidth (w h : Nat) (y : Int)
    (hfit : cropHeightRound w ≤ h) :
    (computeCropWindow w h y).left = 0 ∧
    (computeCropWindow w h y).width = w ∧
    (computeCropWindow w h y).height = cropHeightRound w ∧
    ((computeCropWindow w h y).maxY : Int) = max 0 ((h : Int) - cropHeightRound w) ∧
    ((computeCropWindow w h y).top : Int) =
      max 0 (min y ((computeCropWindow w h y).maxY : Int)) ∧
    (computeCropWindow w h y).top ≤ (computeCropWindow w h y).maxY := by
  unfold computeCropWindow
  refine ⟨rfl, rfl, rfl, ?_, ?_, ?_⟩
  · have h1 : ((h - cropHeightRound w : Nat) : Int) = (h : Int) - cropHeightRound w := by
      omega
    rw [h1, max_eq_right (by omega)]
  · rw [Int.toNat_eq_max, max_comm]
  · exact Int.toNat_le.mpr (min_le_right _ _)

/-- Witness for C1 at `naturalWidth = 800`, `naturalHeight = 1000`,
`requestedY = 100` (`cropHeight = 480 ≤ 1000`). -/
theorem computeCropWindow_fullWidth_witness :
    (computeCropWindow 800 1000 100).left = 0 ∧
    (computeCropWindow 800 1000 100).width = 800 ∧
    (computeCropWindow 800 1000 100).height = cropHeightRound 800 ∧
    ((computeCropWindow 800 1000 100).maxY : Int) =
      max 0 ((1000 : Int) - cropHeightRound 800) ∧
    ((computeCropWindow 800 1000 100).top : Int) =
      max 0 (min 100 ((computeCropWindow 800 1000 100).maxY : Int)) ∧
    (computeCropWindow 800 1000 100).top ≤ (computeCropWindow 800 1000 100).maxY :=
  computeCropWindow_fullWidth 800 1000 100 (by decide)

/-- C2 counterexample: at `naturalWidth = 1000`, `naturalHeight = 100` the
`server/src/lib/image.ts` pipeline computes an extraction rectangle with
`top + height = 600 > 100 = naturalHeight` (the file has no fallback branch),
so the rectangle passed to the extract step is not within source bounds and
`sharp.extract` fails. -/
theorem computeCropWindow_exceeds_bounds :
    (computeCropWindow 1000 100 0).top + (computeCropWindow 1000 100 0).height > 100 := by
  decide

/-- C2 amended: for every `naturalWidth ≥ 1`, `naturalHeight ≥ 1` and every
`requestedY`, the extraction rectangle computed by the safe variant
(`src/unnamed/part_003`) lies entirely within the source image bounds; the
`server/src/lib/image.ts` variant guarantees this only when the full-width
crop fits, i.e. when `round(naturalWidth / targetAspect) ≤ naturalHeight`. -/
theorem extract_rect_in_bounds (w h : Nat) (y : Int) (_hw : 1 ≤ w) (_hh : 1 ≤ h) :
    ((computeCropWindowSafe w h y).left + (computeCropWindowSafe w h y).width ≤ w ∧
      (computeCropWindowSafe w h y).top + (computeCropWindowSafe w h y).height ≤ h) ∧
    (cropHeightRound w ≤ h →
      (computeCropWindow w h y).left + (computeCropWindow w h y).width ≤ w ∧
      (computeCropWindow w h y).top + (computeCropWindow w h y).height ≤ h) := by
  constructor
  · unfold computeCropWindowSafe
    by_cases hc : cropHeightFloor w ≤ h
    · rw [if_pos hc]
      have htop : (min y ((h - cropHeightFloor w : Nat) : Int)).toNat ≤ h - cropHeightFloor w :=
        Int.toNat_le.mpr (min_le_right _ _)
      exact ⟨by simp, by simp only []; omega⟩
    · rw [if_neg hc]
      push_neg at hc
      have h53 : aspectWidthFloor h ≤ w := by
        have h1 : h + 1 ≤ cropHeightFloor w := hc
        have h2 : (h + 1) * 5 ≤ 3 * w := (Nat.le_div_iff_mul_le (by omega)).mp h1
        have h3 : 5 * h ≤ 3 * w := by omega
        calc aspectWidthFloor h = 5 * h / 3 := rfl
          _ ≤ 3 * w / 3 := Nat.div_le_div_right h3
          _ = w := by omega
      have hleft : (w - aspectWidthFloor h) / 2 ≤ w - aspectWidthFloor h :=
        Nat.div_le_self _ _
      exact ⟨by simp only []; omega, by simp only []; omega⟩
  · intro hfit
    unfold computeCropWindow
    have htop : (min y ((h - cropHeightRound w : Nat) : Int)).toNat ≤ h - cropHeightRound w :=
      Int.toNat_le.mpr (min_le_right _ _)
    exact ⟨by simp, by simp only []; omega⟩

/-- Witness for C2 (amended) at `naturalWidth = 800`, `naturalHeight = 1000`,
`requestedY = 9999`, with the conditional part discharged
(`cropHeight = 480 ≤ 1000`). -/
theorem extract_rect_in_bounds_witness :
    ((computeCropWindowSafe 800 1000 9999).left + (computeCropWindowSafe 800 1000 9999).width ≤ 800 ∧
      (computeCropWindowSafe 800 1000 9999).top + (computeCropWindowSafe 800 1000 9999).height ≤ 1000) ∧
    ((computeCropWindow 800 1000 9999).left + (computeCropWindow 800 1000 9999).width ≤ 800 ∧
      (computeCropWindow 800 1000 9999).top + (computeCropWindow 800 1000 9999).height ≤ 1000) :=
  ⟨(extract_rect_in_bounds 800 1000 9999 (by decide) (by decide)).1,
    (extract_rect_in_bounds 800 1000 9999 (by decide) (by decide)).2 (by decide)⟩

/-- C3 counterexample: at `naturalWidth = 4`, `naturalHeight = 1` the claimed
fallback condition holds (`round(4 / (5/3)) = 2 > 1`), and the claim demands
`width = round(1 · 5/3) = 2`, but the code (`src/unnamed/part_003`) computes
`width = Math.floor(1 · 5/3) = 1`. -/
theorem computeCropWindowSafe_width_not_round :
    1 < cropHeightRound 4 ∧
    (computeCropWindowSafe 4 1 0).width = 1 ∧
    aspectWidthRound 1 = 2 := by
  decide

/-- C3 amended: when `floor(naturalWidth / targetAspect)` exceeds
`naturalHeight`, the safe crop computation (`src/unnamed/part_003`) falls back
to full height: `height = naturalHeight`, `top = 0` (no vertical travel,
independently of `requestedY`), `width = floor(naturalHeight · targetAspect)`
and `left = max(0, floor((naturalWidth - width) / 2))`. -/
theorem computeCropWindowSafe_fallback (w h : Nat) (y : Int)
    (hshort : h < cropHeightFloor w) :
    (computeCropWindowSafe w h y).height = h ∧
    (computeCropWindowSafe w h y).top = 0 ∧
    (computeCropWindowSafe w h y).width = aspectWidthFloor h ∧
    (computeCropWindowSafe w h y).left = (w - aspectWidthFloor h) / 2 := by
  unfold computeCropWindowSafe
  rw [if_neg (by omega)]
  exact ⟨rfl, rfl, rfl, rfl⟩

/-- Witness for C3 (amended) at `naturalWidth = 10`, `naturalHeight = 1`,
`requestedY = 7` (`floor(3·10/5) = 6 > 1`). -/
theorem computeCropWindowSafe_fallback_witness :
    (computeCropWindowSafe 10 1 7).height = 1 ∧
    (computeCropWindowSafe 10 1 7).top = 0 ∧
    (computeCropWindowSafe 10 1 7).width = aspectWidthFloor 1 ∧
    (computeCropWindowSafe 10 1 7).left = (10 - aspectWidthFloor 1) / 2 :=
  computeCropWindowSafe_fallback 10 1 7 (by decide)

/-! ## Suggestion engine

Embedding of `suggestYForFaces` from `docs/prd/face-detection.md` (lines
54-110), the face-aware crop-suggestion algorithm.  Face centers are
half-integers, so a face's vertical center `cy = y + height/2` is represented
doubled as `cy2 = 2·y + height`; `Math.floor(cy - cropHeight)` becomes
`⌊(cy2 - 2·cropHeight)/2⌋` and `Math.ceil(cy)` becomes `⌊(cy2+1)/2⌋`, both via
`Int.fdiv`.  JavaScript's stable `Array.prototype.sort` is modelled by a
stable insertion sort; for the endpoint comparator
`a.y - b.y || (a.type === 'start' ? -1 : 1)` the relative order of same-key
elements (same coordinate and type) does not affect the sweep, since all
endpoints at one coordinate are processed between two span checks. -/

/-- A detected face box `{x, y, width, height, confidence?}` in natural
coordinates (`docs/prd/face-detection.md`). -/
structure Face where
  x : Int
  y : Int
  width : Int
  height : Int
  confidence : Option ℚ := none
  deriving Repr, DecidableEq

/-- `area = width * height`. -/
def Face.area (f : Face) : Int := f.width * f.height

/-- Twice the vertical center: `cy2 = 2*y + height`, so `cy = cy2 / 2`. -/
def Face.cy2 (f : Face) : Int := 2 * f.y + f.height

/-- The confidence filter `(f.confidence ?? 1) >= minConfidence`. -/
def passesConfidence (minConfidence : ℚ) (f : Face) : Bool :=
  minConfidence ≤ f.confidence.getD 1

/-- Stable insertion of `x` into a `le`-sorted list: `x` goes before every
element it ties with, preserving original relative order of earlier elements. -/
def insertStable (le : α → α → Bool) (x : α) : List α → List α
  | [] => [x]
  | y :: ys => if le x y then x :: y :: ys else y :: insertStable le x ys

/-- Stable sort (insertion sort), the model of JavaScript's stable
`Array.prototype.sort` with a consistent comparator. -/
def sortStable (le : α → α → Bool) : List α → List α
  | [] => []
  | x :: xs => insertStable le x (sortStable le xs)

/-- Interval endpoint kind: `'start'` or `'end'`. -/
inductive EndpointKind where
  | start
  | stop
  deriving Repr, DecidableEq

/-- Order used by the endpoint comparator: starts before ends at equal `y`. -/
def EndpointKind.ord : EndpointKind → Nat
  | .start => 0
  | .stop => 1

/-- One entry of the `endpoints` array: `{y, type, rank, area}`. -/
structure Endpoint where
  y : Int
  kind : EndpointKind
  rank : Nat
  area : Int
  deriving Repr, DecidableEq

/-- Endpoint comparator `a.y - b.y || (a.type === 'start' ? -1 : 1)` as a
total preorder on the sort key `(y, kind)`. -/
def endpointLe (a b : Endpoint) : Bool :=
  decide (a.y < b.y ∨ (a.y = b.y ∧ a.kind.ord ≤ b.kind.ord))

/-- The sweep accumulator: currently active `(rank, area)` pairs and the best
candidate so far (`bestY`, `bestCount`, `bestAreaSum`, `bestRanks`, `prevY`).
`bestCount`/`bestAreaSum` start at `-1` as in the source. -/
structure SweepState where
  active : List (Nat × Int)
  bestY : Int
  bestCount : Int
  bestAreaSum : Int
  bestRanks : List Nat
  prevY : Int
  deriving Repr, DecidableEq

/-- Initial sweep state (`bestY = 0`, `bestCount = -1`, `bestAreaSum = -1`,
`prevY = 0`). -/
def initialSweep : SweepState :=
  { active := [], bestY := 0, bestCount := -1, bestAreaSum := -1, bestRanks := [], prevY := 0 }

/-- `lexBetter`'s loop: scan ranks `r, r+1, ...` (`fuel` iterations) for the
first rank on which membership of `a` and `b` differs; `a` wins if it is the
one containing it. -/
def lexBetterGo (a b : List Nat) : Nat → Nat → Bool
  | _, 0 => false
  | r, fuel + 1 =>
    if a.contains r ≠ b.contains r then a.contains r
    else lexBetterGo a b (r + 1) fuel

/-- `lexBetter(a, b)` from the source: scan `r < max(a.size, b.size) + 64`. -/
def lexBetter (a b : List Nat) : Bool :=
  lexBetterGo a b 0 (max a.length b.length + 64)

/-- One iteration of the sweep loop `for (const ep of endpoints)`: record a
candidate for the span `(prevY, ep.y)` when the coordinate advanced and some
face is active, then apply the endpoint (activate or deactivate its rank). -/
def sweepStep (maxY : Int) (s : SweepState) (ep : Endpoint) : SweepState :=
  let s1 :=
    if s.prevY < ep.y ∧ s.active ≠ [] then
      let yMid := min maxY (max 0 (Int.fdiv (s.prevY + ep.y) 2))
      let count : Int := s.active.length
      let areaSum := (s.active.map (fun p => p.2)).sum
      let ranks := s.active.map (fun p => p.1)
      let betterCount := s.bestCount < count
      let betterRanks := ¬betterCount ∧ count = s.bestCount ∧ lexBetter ranks s.bestRanks
      let betterArea :=
        ¬betterCount ∧ ¬betterRanks ∧ count = s.bestCount ∧ s.bestAreaSum < areaSum
      if betterCount ∨ betterRanks ∨ betterArea then
        { s with bestY := yMid, bestCount := count, bestAreaSum := areaSum, bestRanks := ranks }
      else s
    else s
  match ep.kind with
  | .start => { s1 with active := s1.active ++ [(ep.rank, ep.area)], prevY := ep.y }
  | .stop => { s1 with active := s1.active.filter (fun p => p.1 ≠ ep.rank), prevY := ep.y }

/-- `suggestYForFaces` from `docs/prd/face-detection.md`, lines 54-110:
filter faces by confidence; if none remain return the clamped centered offset
`Math.round((height - cropHeight) / 2)` (here `⌊(h - ch + 1)/2⌋`); otherwise
rank faces by descending area, build each face's clamped inclusion interval
`[max(0, ⌊cy - cropHeight⌋), min(maxY, ⌈cy⌉)]`, sweep the sorted endpoints
recording span-midpoint candidates, and return the clamped best `y`. -/
def suggestYForFaces (naturalWidth naturalHeight : Nat) (faces : List Face)
    (minConfidence : ℚ) : Int :=
  let cropHeight : Int := cropHeightRound naturalWidth
  let maxY : Int := max 0 ((naturalHeight : Int) - cropHeight)
  let filtered := faces.filter (passesConfidence minConfidence)
  if filtered.isEmpty then
    max 0 (min maxY (Int.fdiv ((naturalHeight : Int) - cropHeight + 1) 2))
  else
    let ranked := sortStable (fun a b => decide (b.area ≤ a.area)) filtered
    let endpoints := ranked.enum.flatMap fun p =>
      let f := p.2
      let s := max 0 (Int.fdiv (f.cy2 - 2 * cropHeight) 2)
      let e := min maxY (Int.fdiv (f.cy2 + 1) 2)
      if s ≤ e then
        [{ y := s, kind := .start, rank := p.1, area := f.area },
         { y := e, kind := .stop, rank := p.1, area := f.area }]
      else []
    let final := (sortStable endpointLe endpoints).foldl (sweepStep maxY) initialSweep
    max 0 (min maxY final.bestY)

/-- The number of faces (passing the confidence filter) whose vertical center
`cy` lies inside the crop band `[offset, offset + cropHeight]`, i.e.
`2·offset ≤ cy2 ≤ 2·(offset + cropHeight)` — the inclusion criterion of the
claim and of the PRD ("a face counts as included if its vertical center lies
in [Y, Y + cropHeight]"). -/
def includedCount (faces : List Face) (minConfidence : ℚ)
    (cropHeight offset : Int) : Nat :=
  ((faces.filter (passesConfidence minConfidence)).filter
    (fun f => decide (2 * offset ≤ f.cy2 ∧ f.cy2 ≤ 2 * (offset + cropHeight)))).length

/-- C4: when no face survives the confidence filter, `suggestYForFaces`
returns the geometrically centered offset `round((naturalHeight -
cropHeight)/2)` (as `⌊(h - ch + 1)/2⌋`) clamped to `[0, maxY]`. -/
theorem suggestYForFaces_empty_centered (w h : Nat) (minConf : ℚ) (faces : List Face)
    (hempty : faces.filter (passesConfidence minConf) = []) :
    suggestYForFaces w h faces minConf =
      max 0 (min (max 0 ((h : Int) - cropHeightRound w))
        (Int.fdiv ((h : Int) - cropHeightRound w + 1) 2)) := by
  unfold suggestYForFaces
  rw [hempty]
  simp

/-- Witness for C4 at `naturalWidth = 800`, `naturalHeight = 1000`
(`cropHeight = 480`), empty face list, `minConfidence = 1`: the centered
offset is `round((1000 - 480)/2) = 260`. -/
theorem suggestYForFaces_empty_centered_witness :
    suggestYForFaces 800 1000 [] 1 =
      max 0 (min (max 0 ((1000 : Int) - cropHeightRound 800))
        (Int.fdiv ((1000 : Int) - cropHeightRound 800 + 1) 2)) ∧
    suggestYForFaces 800 1000 [] 1 = 260 := by
  have h := suggestYForFaces_empty_centered 800 1000 1 [] rfl
  exact ⟨h, by rw [h]; decide⟩

/-- Face with `cy = 155` and area `1600` (rank 0) for the C5 failing input. -/
def faceA : Face := { x := 0, y := 135, width := 40, height := 40 }

/-- Face with `cy = 305` and area `400` (rank 1) for the C5 failing input. -/
def faceB : Face := { x := 0, y := 295, width := 20, height := 20 }

/-- C5: at `naturalWidth = 250`, `naturalHeight = 400` (`cropHeight = 150`,
`maxY = 250`) with faces `faceA` (`cy = 155`) and `faceB` (`cy = 305`), the
two inclusion intervals `[5, 155]` and `[155, 250]` overlap exactly at the
single offset `155`, where both faces are included.  The sweep records
candidates only at midpoints of open spans between endpoint coordinates, so
it never evaluates `155`: the code returns `y = 80`, which includes one face,
while offset `155 ∈ [0, maxY]` includes two — contradicting the PRD's own
acceptance criterion that the chosen `y` maximizes the included-face count. -/
theorem suggestYForFaces_misses_boundary_optimum :
    suggestYForFaces 250 400 [faceA, faceB] 1 = 80 ∧
    includedCount [faceA, faceB] 1 150 80 = 1 ∧
    includedCount [faceA, faceB] 1 150 155 = 2 ∧
    (0 : Int) ≤ 155 ∧ (155 : Int) ≤ max 0 ((400 : Int) - cropHeightRound 250) := by
  decide

/-! ## Concurrency limiter

Transition-system embedding of `createLimiter` (`server/src/routes/convert.ts`
lines 7-27) under the convert route's usage (lines 86-102): all `limit(...)`
calls are made in one synchronous `images.map(...)` loop before any task can
complete, so after submission `active = min(n, c)` tasks have started and the
rest are parked in `queue`.  Afterwards the only transitions are:

* a running task's body settles; its `finally` runs `next()` synchronously:
  `active--` and, if the queue is non-empty, `queue.shift()()` resolves one
  waiter (the waiter's continuation is only scheduled, not run);
* a previously woken waiter's continuation runs: `active++` and its body
  starts.

State correspondence: `queued` = `queue.length`; `woken` = resolvers already
called by `next()` whose task has not yet re-entered `limit`; `running` =
tasks between their `active++` and their `finally`, i.e. tasks mid-execution;
`active` = the `active` counter. -/

/-- The limiter's abstract state (see the section comment for the
correspondence with `createLimiter`'s variables). -/
structure LimiterState where
  queued : Nat
  woken : Nat
  running : Nat
  active : Nat
  deriving Repr, DecidableEq

/-- State after the route's synchronous submission of `n` tasks under limit
`c`: the first `min n c` calls see `active < c` and start immediately; the
rest push a resolver onto `queue` and suspend. -/
def limiterInit (n c : Nat) : LimiterState :=
  { queued := n - min n c, woken := 0, running := min n c, active := min n c }

/-- One scheduler step of the limiter after submission: a completion with a
non-empty queue (decrement and wake one waiter), a completion with an empty
queue, or a woken waiter resuming (`active++`, body starts). -/
inductive LimiterStep : LimiterState → LimiterState → Prop
  | finishWake (s : LimiterState) (hr : 1 ≤ s.running) (hq : 1 ≤ s.queued) :
      LimiterStep s
        { queued := s.queued - 1, woken := s.woken + 1,
          running := s.running - 1, active := s.active - 1 }
  | finishIdle (s : LimiterState) (hr : 1 ≤ s.running) (hq : s.queued = 0) :
      LimiterStep s
        { s with running := s.running - 1, active := s.active - 1 }
  | resume (s : LimiterState) (hw : 1 ≤ s.woken) :
      LimiterStep s
        { s with woken := s.woken - 1, running := s.running + 1, active := s.active + 1 }

/-- The states the limiter can reach from a batch of `n` tasks under limit
`c`, over every interleaving of task completions and wake-ups. -/
def LimiterReachable (n c : Nat) (s : LimiterState) : Prop :=
  Relation.ReflTransGen LimiterStep (limiterInit n c) s

/-- The inductive invariant: woken-but-not-resumed waiters hold a reserved
slot, so `running + woken` never exceeds the limit. -/
theorem limiterStep_preserves_bound {c : Nat} {s s' : LimiterState}
    (hstep : LimiterStep s s') (hinv : s.running + s.woken ≤ c) :
    s'.running + s'.woken ≤ c := by
  cases hstep with
  | finishWake hr hq => simp only [] at hinv ⊢; omega
  | finishIdle hr hq => simp only [] at hinv ⊢; omega
  | resume hw => simp only [] at hinv ⊢; omega

/-- C6: for every manifest size `n`, limit `c` and every interleaving of task
completions, the number of tasks mid-execution (started body, not yet
finished) never exceeds the limit passed to `createLimiter`. -/
theorem limiter_concurrency_bound (n c : Nat) (s : LimiterState)
    (hreach : LimiterReachable n c s) : s.running ≤ c := by
  have hinv : s.running + s.woken ≤ c := by
    induction hreach with
    | refl => simp only [limiterInit]; omega
    | tail _ hstep ih => exact limiterStep_preserves_bound hstep ih
  omega

/-- Witness for C6: from a 5-task batch under limit 2, take one completion
(which wakes a queued task) followed by that task's resumption; the reached
state has 2 tasks running, within the limit. -/
theorem limiter_concurrency_bound_witness :
    ({ queued := 2, woken := 0, running := 2, active := 2 } : LimiterState).running ≤ 2 :=
  limiter_concurrency_bound 5 2 _
    (Relation.ReflTransGen.tail
      (Relation.ReflTransGen.tail Relation.ReflTransGen.refl
        (LimiterStep.finishWake (limiterInit 5 2) (by decide) (by decide)))
      (LimiterStep.resume
        { queued := 2, woken := 1, running := 1, active := 1 } (by decide)))

/-! ## Batch execution of the convert route

Executable embedding of the task-processing part of `registerConvertRoute`
(`server/src/routes/convert.ts` lines 86-121).  Each task is reduced to its
observable outcome (`true` = conversion succeeds and `archive.append` is
called, `false` = `convertToBmp565WithDither` throws).  The nondeterministic
interleaving of task completions is captured by a `sched` oracle choosing
which running task settles next.  The trace records, in order: task
dispatches (a task's body starting under the limiter), `archive.append`
calls, task failures, `archive.finalize()` and the failure report
(`catch` branch: `archive.destroy()` plus a 500 / destroyed socket).
`Promise.all(tasks)` fulfills only if every task fulfills, so `finalize` runs
only in the all-success case; on any failure the `catch` branch reports the
error.  The limiter's `finally { next() }` dispatches the next queued task
after every completion, successful or not. -/

/-- An observable event of one batch-conversion run. -/
inductive BatchEvent where
  | dispatch (i : Nat)
  | appendEntry (i : Nat)
  | taskFailed (i : Nat)
  | finalize
  | errorOut
  deriving Repr, DecidableEq

/-- Completion loop: while tasks are running, the `sched` oracle picks one
running task to settle; it emits its append/failure event and — via the
limiter's `finally`/`next()` — dispatches the head of the queue if any.
`fuel` is the number of remaining completions (one per task). -/
def runBatchGo : Nat → List (Nat × Bool) → List (Nat × Bool) → List Nat → List BatchEvent
  | 0, _, _, _ => []
  | _ + 1, [], _, _ => []
  | fuel + 1, r :: rs, waiting, sched =>
    let running := r :: rs
    let pick := sched.headD 0 % running.length
    let t := running.getD pick (0, true)
    let ev := if t.2 then BatchEvent.appendEntry t.1 else BatchEvent.taskFailed t.1
    let running' := running.eraseIdx pick
    match waiting with
    | [] => ev :: runBatchGo fuel running' [] sched.tail
    | j :: rest =>
      ev :: BatchEvent.dispatch j.1 :: runBatchGo fuel (running' ++ [j]) rest sched.tail

/-- One full run of the convert route's batch for task outcomes `outcomes`
under concurrency limit `c` and completion schedule `sched`: the synchronous
submission dispatches the first `min n c` tasks and queues the rest, the
completion loop runs every task, then `await Promise.all` either reaches
`archive.finalize()` (all tasks succeeded) or lands in the `catch` branch and
reports failure. -/
def runBatch (c : Nat) (outcomes : List Bool) (sched : List Nat) : List BatchEvent :=
  let tasks := outcomes.enum
  (tasks.take c).map (fun t => BatchEvent.dispatch t.1) ++
    runBatchGo tasks.length (tasks.take c) (tasks.drop c) sched ++
    (if outcomes.all id then [BatchEvent.finalize] else [BatchEvent.errorOut])

/-- The completion loop never finalizes the archive: `finalize` can only come
from the all-success branch after `Promise.all`. -/
theorem finalize_not_in_runBatchGo (fuel : Nat) :
    ∀ (running waiting : List (Nat × Bool)) (sched : List Nat),
      BatchEvent.finalize ∉ runBatchGo fuel running waiting sched := by
  induction fuel with
  | zero => intro running waiting sched; simp [runBatchGo]
  | succ n ih =>
    intro running waiting sched
    match running with
    | [] => simp [runBatchGo]
    | r :: rs =>
      match waiting with
      | [] =>
        simp only [runBatchGo, List.mem_cons]
        rintro (h | h)
        · split at h <;> simp at h
        · exact ih _ _ _ h
      | j :: rest =>
        simp only [runBatchGo, List.mem_cons]
        rintro (h | h | h)
        · split at h <;> simp at h
        · simp at h
        · exact ih _ _ _ h

/-- C7 counterexample: a 5-entry manifest whose third task (index 2) fails,
under limit 2 with in-order completions.  The trace shows that after
`taskFailed 2` the still-queued task 4 is dispatched and the outputs of
tasks 3 and 4 are still appended: the limiter's `finally` keeps dispatching
and each task appends its own result regardless of earlier failures, refuting
"no queued task is ever dispatched afterward" and "the output of every other
task is discarded and never appended". -/
theorem runBatch_dispatches_after_failure :
    runBatch 2 [true, true, false, true, true] [0, 0, 0, 0, 0] =
      [BatchEvent.dispatch 0, BatchEvent.dispatch 1,
       BatchEvent.appendEntry 0, BatchEvent.dispatch 2,
       BatchEvent.appendEntry 1, BatchEvent.dispatch 3,
       BatchEvent.taskFailed 2, BatchEvent.dispatch 4,
       BatchEvent.appendEntry 3, BatchEvent.appendEntry 4,
       BatchEvent.errorOut] ∧
    BatchEvent.taskFailed 2 ∈
      (runBatch 2 [true, true, false, true, true] [0, 0, 0, 0, 0]).take 7 ∧
    BatchEvent.dispatch 4 ∈
      (runBatch 2 [true, true, false, true, true] [0, 0, 0, 0, 0]).drop 7 ∧
    BatchEvent.appendEntry 3 ∈
      (runBatch 2 [true, true, false, true, true] [0, 0, 0, 0, 0]).drop 7 := by
  decide

/-- C7 amended: if any conversion task in a batch fails then, for every
schedule, the archive is never finalized (`archive.finalize()` is reached
only when every task succeeds) and the run ends with the failure report;
queued tasks do, however, continue to be dispatched and successful tasks
still append their output (see the counterexample trace). -/
theorem runBatch_failure_never_finalizes (c : Nat) (outcomes : List Bool)
    (sched : List Nat) (hfail : outcomes.any (fun b => !b) = true) :
    BatchEvent.finalize ∉ runBatch c outcomes sched ∧
    (runBatch c outcomes sched).getLast? = some BatchEvent.errorOut := by
  have hall : outcomes.all id = false := by
    rcases List.any_eq_true.mp hfail with ⟨b, hb, hbf⟩
    rcases b with _ | _
    · exact List.all_eq_false.mpr ⟨false, hb, by simp [id]⟩
    · simp at hbf
  constructor
  · unfold runBatch
    simp only [hall, Bool.false_eq_true, if_false, List.mem_append, List.mem_map,
      List.mem_singleton]
    rintro ((⟨t, _, h⟩ | h) | h)
    · simp at h
    · exact finalize_not_in_runBatchGo _ _ _ _ h
    · simp at h
  · unfold runBatch
    simp only [hall, Bool.false_eq_true, if_false]
    rw [List.getLast?_concat]

/-- Witness for C7 (amended): a 2-entry batch whose second task fails, limit
1, in-order completions. -/
theorem runBatch_failure_never_finalizes_witness :
    BatchEvent.finalize ∉ runBatch 1 [true, false] [0, 0] ∧
    (runBatch 1 [true, false] [0, 0]).getLast? = some BatchEvent.errorOut :=
  runBatch_failure_never_finalizes 1 [true, false] [0, 0] (by decide)

/-! ## Manifest validation

Embedding of the validation prologue of `registerConvertRoute`
(`server/src/routes/convert.ts` lines 51-64).  The `typeof` checks on
`fileName`/`y` cannot fail in a typed embedding; the remaining checks are the
non-empty-array check and, per entry, membership of `fileName` among the
uploaded files.  The archive, the limiter and all processing are created only
after this validation returns no error. -/

/-- One manifest entry `{fileName, y}` (a Crop Request). -/
structure CropRequest where
  fileName : String
  y : Int
  deriving Repr, DecidableEq

/-- The convert route's manifest validation: `some errorMessage` when the
request is rejected with a 400 before any processing, `none` when processing
proceeds. -/
def validateManifest (images : List CropRequest) (files : List String) : Option String :=
  if images.isEmpty then some "manifest.images must be a non-empty array"
  else
    match images.find? (fun img => !(files.contains img.fileName)) with
    | some img => some ("missing file for " ++ img.fileName)
    | none => none

/-- C8: a manifest entry whose `fileName` matches no uploaded source is
rejected with a validation error (`missing file for ...`) before processing —
but a manifest with two Crop Requests sharing the same `fileName` passes
validation (`validateManifest` returns `none`) and proceeds to processing,
although the names are not `Nodup`: the code has no duplicate check, contrary
to `docs/prd/backend.md` §8 ("Manifest duplicates are invalid"). -/
theorem validateManifest_accepts_duplicates :
    validateManifest [{ fileName := "b.jpg", y := 0 }] ["a.jpg"] =
      some "missing file for b.jpg" ∧
    validateManifest
      [{ fileName := "a.jpg", y := 0 }, { fileName := "a.jpg", y := 5 }] ["a.jpg"] = none ∧
    ¬ (([{ fileName := "a.jpg", y := 0 }, { fileName := "a.jpg", y := 5 }] :
        List CropRequest).map CropRequest.fileName).Nodup := by
  decide

/-! ## Progress channel

Embedding of the server progress library (the SSE pub/sub over
`const jobs = new Map<string, JobState>()`, functions `subscribe`, `startJob`,
`reportProgress`, `completeJob`, `errorJob` and the unsubscribe closure;
`src/src/lib/storage.ts` lines 138-237).  The `Map` is modelled as an
association list preserving insertion order (`Map.set` replaces in place or
appends), SSE sinks (`ServerResponse` objects) as `Nat` identifiers, and each
`writeSseEvent(res, event)` as an `Emission` record tagged with the job id and
sink.  `res.end()` calls emit nothing.  `completeJob`/`errorJob` broadcast,
end every listener and then `jobs.delete(jobId)`; only the deletion is
visible in the final registry, so they are modelled as broadcast plus
removal. -/

/-- The `type` field of a `ProgressEvent`:
`'init' | 'progress' | 'complete' | 'error'`. -/
inductive EventKind where
  | init
  | progress
  | complete
  | error
  deriving Repr, DecidableEq

/-- A `ProgressEvent` payload `{type, current, total, fileName?, message?}`. -/
structure ProgressEvent where
  kind : EventKind
  current : Int
  total : Int
  fileName : Option String := none
  message : Option String := none
  deriving Repr, DecidableEq

/-- A job's `status`: `'pending' | 'running' | 'completed' | 'error'`. -/
inductive JobStatus where
  | pending
  | running
  | completed
  | errored
  deriving Repr, DecidableEq

/-- The per-job state `{total, current, status, listeners}` (the `jobId` field
is the registry key). -/
structure JobState where
  total : Int
  current : Int
  status : JobStatus
  listeners : List Nat
  deriving Repr, DecidableEq

/-- The process-wide `jobs` map, as an insertion-ordered association list. -/
abbrev Registry := List (String × JobState)

/-- `jobs.get(jobId)`. -/
def lookupJob (reg : Registry) (jobId : String) : Option JobState :=
  (reg.find? (fun p => p.1 == jobId)).map (fun p => p.2)

/-- `jobs.set(jobId, st)`: replace in place if present, else append. -/
def setJob (reg : Registry) (jobId : String) (st : JobState) : Registry :=
  match reg with
  | [] => [(jobId, st)]
  | p :: rest => if p.1 == jobId then (jobId, st) :: rest else p :: setJob rest jobId st

/-- `jobs.delete(jobId)`. -/
def removeJob (reg : Registry) (jobId : String) : Registry :=
  reg.filter (fun p => !(p.1 == jobId))

/-- One `writeSseEvent` call: which sink received which event, tagged with the
job it belongs to. -/
structure Emission where
  job : String
  sink : Nat
  event : ProgressEvent
  deriving Repr, DecidableEq

/-- `subscribe(jobId, res)` (storage.ts lines 167-177): create the job on
first reference (`pending`, `current = 0`, `total = 0`), add the sink to the
listener set, and immediately replay the current snapshot as an `init`
event to the new sink. -/
def subscribeOp (reg : Registry) (jobId : String) (sink : Nat) : Registry × List Emission :=
  match lookupJob reg jobId with
  | none =>
    let job : JobState := { total := 0, current := 0, status := .pending, listeners := [sink] }
    (setJob reg jobId job,
      [{ job := jobId, sink := sink, event := { kind := .init, current := 0, total := 0 } }])
  | some job =>
    let ls := if job.listeners.contains sink then job.listeners else job.listeners ++ [sink]
    (setJob reg jobId { job with listeners := ls },
      [{ job := jobId, sink := sink,
         event := { kind := .init, current := job.current, total := job.total } }])

/-- The unsubscribe closure returned by `subscribe` (storage.ts lines
179-188): remove the sink, and forget the job if it has no listeners left and
is terminal.  Emits nothing. -/
def unsubscribeOp (reg : Registry) (jobId : String) (sink : Nat) : Registry × List Emission :=
  match lookupJob reg jobId with
  | none => (reg, [])
  | some job =>
    let job' := { job with listeners := job.listeners.filter (fun s => !(s == sink)) }
    if job'.listeners.isEmpty ∧ (job'.status = .completed ∨ job'.status = .errored) then
      (removeJob reg jobId, [])
    else
      (setJob reg jobId job', [])

/-- `startJob(jobId, total)` (storage.ts lines 191-203): create or reset the
job (`current = 0`, status `running`), then broadcast the `init` snapshot to
the job's listeners. -/
def startJobOp (reg : Registry) (jobId : String) (total : Int) : Registry × List Emission :=
  match lookupJob reg jobId with
  | none =>
    (setJob reg jobId { total := total, current := 0, status := .running, listeners := [] }, [])
  | some job =>
    let job' := { job with total := total, current := 0, status := JobStatus.running }
    (setJob reg jobId job',
      job'.listeners.map (fun s =>
        { job := jobId, sink := s, event := { kind := .init, current := 0, total := total } }))

/-- `reportProgress(jobId, current, total, fileName?)` (storage.ts lines
205-212): if the job is unknown, do nothing; otherwise overwrite `current`
and `total` with the caller's values and broadcast a `progress` event. -/
def reportProgressOp (reg : Registry) (jobId : String) (current total : Int)
    (fileName : Option String) : Registry × List Emission :=
  match lookupJob reg jobId with
  | none => (reg, [])
  | some job =>
    (setJob reg jobId { job with current := current, total := total },
      job.listeners.map (fun s =>
        { job := jobId, sink := s,
          event := { kind := .progress, current := current, total := total,
                     fileName := fileName } }))

/-- `completeJob(jobId)` (storage.ts lines 214-225): if the job is unknown,
do nothing; otherwise broadcast `complete`, end every listener and forget the
job. -/
def completeJobOp (reg : Registry) (jobId : String) : Registry × List Emission :=
  match lookupJob reg jobId with
  | none => (reg, [])
  | some job =>
    (removeJob reg jobId,
      job.listeners.map (fun s =>
        { job := jobId, sink := s,
          event := { kind := .complete, current := job.current, total := job.total } }))

/-- `errorJob(jobId, message)` (storage.ts lines 227-237): if the job is
unknown, do nothing; otherwise broadcast `error` with the message, end every
listener and forget the job. -/
def errorJobOp (reg : Registry) (jobId : String) (message : String) :
    Registry × List Emission :=
  match lookupJob reg jobId with
  | none => (reg, [])
  | some job =>
    (removeJob reg jobId,
      job.listeners.map (fun s =>
        { job := jobId, sink := s,
          event := { kind := .error, current := job.current, total := job.total,
                     message := some message } }))

/-- An operation on the progress channel. -/
inductive ChannelOp where
  | subscribe (jobId : String) (sink : Nat)
  | unsubscribe (jobId : String) (sink : Nat)
  | start (jobId : String) (total : Int)
  | report (jobId : String) (current total : Int) (fileName : Option String)
  | complete (jobId : String)
  | error (jobId : String) (message : String)
  deriving Repr, DecidableEq

/-- Dispatch one operation. -/
def applyOp (reg : Registry) : ChannelOp → Registry × List Emission
  | .subscribe j s => subscribeOp reg j s
  | .unsubscribe j s => unsubscribeOp reg j s
  | .start j t => startJobOp reg j t
  | .report j c t fn => reportProgressOp reg j c t fn
  | .complete j => completeJobOp reg j
  | .error j m => errorJobOp reg j m

/-- Run a sequence of operations, accumulating all emissions in order. -/
def runOps (reg : Registry) : List ChannelOp → Registry × List Emission
  | [] => (reg, [])
  | op :: ops =>
    ((runOps (applyOp reg op).1 ops).1,
      (applyOp reg op).2 ++ (runOps (applyOp reg op).1 ops).2)

/-- The `current` arguments of the `reportProgress` calls for one job, in
call order. -/
def reportedCurrents (jobId : String) (ops : List ChannelOp) : List Int :=
  ops.filterMap fun op =>
    match op with
    | .report j c _ _ => if j = jobId then some c else none
    | _ => none

/-- The `current` values of the `progress` events emitted for one job, in
emission order (across all listeners). -/
def progressCurrents (jobId : String) (evs : List Emission) : List Int :=
  (evs.filter (fun e => e.job == jobId && e.event.kind == EventKind.progress)).map
    (fun e => e.event.current)

/-- The `current` values of the `progress` events delivered to one sink for
one job, in delivery order. -/
def progressCurrentsTo (jobId : String) (sink : Nat) (evs : List Emission) : List Int :=
  ((evs.filter (fun e => e.job == jobId && e.event.kind == EventKind.progress)).filter
    (fun e => e.sink == sink)).map (fun e => e.event.current)

theorem beq_init_progress : (EventKind.init == EventKind.progress) = false := rfl

theorem beq_complete_progress : (EventKind.complete == EventKind.progress) = false := rfl

theorem beq_error_progress : (EventKind.error == EventKind.progress) = false := rfl

theorem beq_progress_progress : (EventKind.progress == EventKind.progress) = true := rfl

/-- After `jobs.set(jobId, st)` the job is present with state `st`. -/
theorem lookupJob_setJob (reg : Registry) (j : String) (st : JobState) :
    lookupJob (setJob reg j st) j = some st := by
  induction reg with
  | nil => simp [setJob, lookupJob, List.find?]
  | cons p rest ih =>
    simp only [setJob]
    by_cases h : p.1 == j
    · rw [if_pos h]
      simp [lookupJob, List.find?]
    · rw [if_neg h]
      simp only [lookupJob, List.find?, h]
      exact ih

/-- `progressCurrents` distributes over emission concatenation. -/
theorem progressCurrents_append (j : String) (a b : List Emission) :
    progressCurrents j (a ++ b) = progressCurrents j a ++ progressCurrents j b := by
  simp [progressCurrents]

/-- Only `reportProgress` emits `progress` events: an operation other than a
report on job `j` contributes no entry to `progressCurrents j`. -/
theorem progressCurrents_applyOp_eq_nil (j : String) (reg : Registry) (op : ChannelOp)
    (hop : ∀ c t fn, op ≠ ChannelOp.report j c t fn) :
    progressCurrents j (applyOp reg op).2 = [] := by
  cases op with
  | subscribe j' s =>
    cases hl : lookupJob reg j' <;>
      simp [applyOp, subscribeOp, hl, progressCurrents, beq_init_progress]
  | unsubscribe j' s =>
    cases hl : lookupJob reg j' <;>
      simp [applyOp, unsubscribeOp, hl, progressCurrents, apply_ite]
  | start j' t =>
    cases hl : lookupJob reg j' <;>
      simp [applyOp, startJobOp, hl, progressCurrents, beq_init_progress, List.filter_map]
  | report j' c t fn =>
    have hj : j' ≠ j := by
      intro heq
      exact hop c t fn (by rw [heq])
    cases hl : lookupJob reg j' with
    | none => simp [applyOp, reportProgressOp, hl, progressCurrents]
    | some job =>
      simp [applyOp, reportProgressOp, hl, progressCurrents, List.filter_map,
        Function.comp, hj]
  | complete j' =>
    cases hl : lookupJob reg j' <;>
      simp [applyOp, completeJobOp, hl, progressCurrents, beq_complete_progress,
        List.filter_map]
  | error j' m =>
    cases hl : lookupJob reg j' <;>
      simp [applyOp, errorJobOp, hl, progressCurrents, beq_error_progress, List.filter_map]

/-- Broadcasting one `progress` event to each listener contributes one copy of
`current` per listener to `progressCurrents`. -/
theorem progressCurrents_broadcast (j : String) (c t : Int) (fn : Option String) :
    ∀ ls : List Nat,
      ((ls.map (fun s =>
        ({ job := j, sink := s,
           event := { kind := EventKind.progress, current := c, total := t,
                      fileName := fn } } : Emission))).filter
        (fun e => e.job == j && e.event.kind == EventKind.progress)).map
        (fun e => e.event.current) =
      List.replicate ls.length c := by
  intro ls
  induction ls with
  | nil => rfl
  | cons s ss ih => simp only [List.map_cons, List.filter_cons, beq_self_eq_true,
      beq_progress_progress, Bool.and_self, if_true, List.length_cons,
      List.replicate_succ, ih]

/-- A report on job `j` against a known job broadcasts its `current` once per
listener; against an unknown job it emits nothing. -/
theorem progressCurrents_applyOp_report (j : String) (reg : Registry) (c t : Int)
    (fn : Option String) :
    progressCurrents j (applyOp reg (ChannelOp.report j c t fn)).2 =
      match lookupJob reg j with
      | none => []
      | some job => List.replicate job.listeners.length c := by
  cases hl : lookupJob reg j with
  | none => simp [applyOp, reportProgressOp, hl, progressCurrents]
  | some job =>
    simp only [applyOp, reportProgressOp, hl, progressCurrents]
    exact progressCurrents_broadcast j c t fn job.listeners

/-- `reportedCurrents` ignores operations other than reports on `j`. -/
theorem reportedCurrents_cons_other (j : String) (op : ChannelOp) (rest : List ChannelOp)
    (hop : ∀ c t fn, op ≠ ChannelOp.report j c t fn) :
    reportedCurrents j (op :: rest) = reportedCurrents j rest := by
  cases op with
  | report j' c t fn =>
    have hj : j' ≠ j := by
      intro heq
      exact hop c t fn (by rw [heq])
    simp [reportedCurrents, hj]
  | subscribe j' s => simp [reportedCurrents]
  | unsubscribe j' s => simp [reportedCurrents]
  | start j' t => simp [reportedCurrents]
  | complete j' => simp [reportedCurrents]
  | error j' m => simp [reportedCurrents]

/-- A report on `j` contributes its `current` to `reportedCurrents j`. -/
theorem reportedCurrents_cons_report (j : String) (c t : Int) (fn : Option String)
    (rest : List ChannelOp) :
    reportedCurrents j (ChannelOp.report j c t fn :: rest) =
      c :: reportedCurrents j rest := by
  simp [reportedCurrents]

/-- Core transfer lemma: if `lb` followed by the reported currents for `j` is
non-decreasing, then the emitted `progress` currents for `j` are
non-decreasing and all bounded below by `lb`. -/
theorem progressCurrents_mono_aux (j : String) :
    ∀ (ops : List ChannelOp) (reg : Registry) (lb : Int),
      List.Chain' (fun a b : Int => a ≤ b) (lb :: reportedCurrents j ops) →
      List.Chain' (fun a b : Int => a ≤ b) (progressCurrents j (runOps reg ops).2) ∧
      ∀ x ∈ progressCurrents j (runOps reg ops).2, lb ≤ x := by
  intro ops
  induction ops with
  | nil =>
    intro reg lb _
    simp [runOps, progressCurrents]
  | cons op rest ih =>
    intro reg lb h
    rw [runOps, progressCurrents_append]
    by_cases hisrep : ∃ c t fn, op = ChannelOp.report j c t fn
    · obtain ⟨c, t, fn, rfl⟩ := hisrep
      rw [reportedCurrents_cons_report] at h
      have hlb : lb ≤ c := (List.chain'_cons.mp h).1
      have hc : List.Chain' (fun a b : Int => a ≤ b) (c :: reportedCurrents j rest) :=
        (List.chain'_cons.mp h).2
      obtain ⟨ihc, ihge⟩ := ih (applyOp reg (ChannelOp.report j c t fn)).1 c hc
      rw [progressCurrents_applyOp_report]
      cases hl : lookupJob reg j with
      | none =>
        refine ⟨by simpa using ihc, ?_⟩
        intro x hx
        simp only [List.nil_append] at hx
        exact le_trans hlb (ihge x hx)
      | some job =>
        constructor
        · refine List.chain'_append.mpr ⟨?_, ihc, ?_⟩
          · exact List.chain'_replicate_of_rel _ (le_refl c)
          · intro x hx y hy
            have hmem : x ∈ List.replicate job.listeners.length c :=
              List.mem_of_mem_getLast? hx
            rw [List.eq_of_mem_replicate hmem]
            exact ihge y (List.mem_of_mem_head? hy)
        · intro x hx
          rcases List.mem_append.mp hx with hx1 | hx2
          · rw [List.eq_of_mem_replicate hx1]
            exact hlb
          · exact le_trans hlb (ihge x hx2)
    · push_neg at hisrep
      rw [reportedCurrents_cons_other j op rest hisrep] at h
      rw [progressCurrents_applyOp_eq_nil j reg op hisrep]
      obtain ⟨ihc, ihge⟩ := ih (applyOp reg op).1 lb h
      exact ⟨by simpa using ihc, by simpa using ihge⟩

/-- If no report on `j` occurs, no `progress` event for `j` is emitted. -/
theorem progressCurrents_eq_nil_of_no_reports (j : String) :
    ∀ (ops : List ChannelOp) (reg : Registry),
      reportedCurrents j ops = [] →
      progressCurrents j (runOps reg ops).2 = [] := by
  intro ops
  induction ops with
  | nil =>
    intro reg _
    simp [runOps, progressCurrents]
  | cons op rest ih =>
    intro reg h
    rw [runOps, progressCurrents_append]
    by_cases hisrep : ∃ c t fn, op = ChannelOp.report j c t fn
    · obtain ⟨c, t, fn, rfl⟩ := hisrep
      rw [reportedCurrents_cons_report] at h
      exact absurd h (List.cons_ne_nil _ _)
    · push_neg at hisrep
      rw [reportedCurrents_cons_other j op rest hisrep] at h
      rw [progressCurrents_applyOp_eq_nil j reg op hisrep, ih _ h]
      rfl

/-- The operation sequence of the C9 counterexample: start job `"j"` with
total 5, then report `current = 3` followed by `current = 1`. -/
def nonMonotoneOps : List ChannelOp :=
  [ChannelOp.subscribe "j" 0, ChannelOp.start "j" 5,
   ChannelOp.report "j" 3 5 none, ChannelOp.report "j" 1 5 none]

/-- C9 counterexample: `reportProgress` imposes no monotonicity — the
operation sequence `start "j" 5; report "j" 3; report "j" 1` delivers the
subscribed sink `progress` events with currents `3` then `1`, a strictly
decreasing pair, so `current` is not monotonically non-decreasing across
every operation sequence within a job's lifetime. -/
theorem reportProgress_not_monotone :
    progressCurrents "j" (runOps [] nonMonotoneOps).2 = [3, 1] ∧
    ¬ List.Chain' (fun a b : Int => a ≤ b)
      (progressCurrents "j" (runOps [] nonMonotoneOps).2) := by
  have h : progressCurrents "j" (runOps [] nonMonotoneOps).2 = [3, 1] := by rfl
  refine ⟨h, ?_⟩
  rw [h]
  intro hch
  have h31 : (3 : Int) ≤ 1 := (List.chain'_cons.mp hch).1
  omega

/-- C9 amended: the channel broadcasts exactly the caller-supplied `current`
values in call order and does not enforce monotonicity; consequently, for
every operation sequence whose reported currents for a job are
non-decreasing, the `progress` events emitted for that job — and the
subsequence of them delivered to any single subscriber — carry non-decreasing
`current` values. -/
theorem progress_monotone_of_reports_monotone (j : String) (sink : Nat)
    (ops : List ChannelOp)
    (hmono : List.Chain' (fun a b : Int => a ≤ b) (reportedCurrents j ops)) :
    List.Chain' (fun a b : Int => a ≤ b) (progressCurrents j (runOps [] ops).2) ∧
    List.Chain' (fun a b : Int => a ≤ b)
      (progressCurrentsTo j sink (runOps [] ops).2) := by
  have hwhole : List.Chain' (fun a b : Int => a ≤ b)
      (progressCurrents j (runOps [] ops).2) := by
    cases hr : reportedCurrents j ops with
    | nil => rw [progressCurrents_eq_nil_of_no_reports j ops [] hr]; exact List.chain'_nil
    | cons c rts =>
      have h0 : List.Chain' (fun a b : Int => a ≤ b) (c :: c :: rts) := by
        rw [hr] at hmono
        exact List.chain'_cons.mpr ⟨le_refl c, hmono⟩
      exact (progressCurrents_mono_aux j ops [] c (by rw [hr]; exact h0)).1
  refine ⟨hwhole, ?_⟩
  have hsub : List.Sublist (progressCurrentsTo j sink (runOps [] ops).2)
      (progressCurrents j (runOps [] ops).2) := by
    unfold progressCurrentsTo progressCurrents
    exact List.Sublist.map _ (List.filter_sublist _)
  exact List.Chain'.sublist hwhole hsub

/-- The operation sequence for the C9 witness: non-decreasing reports 1, 2. -/
def monotoneOps : List ChannelOp :=
  [ChannelOp.subscribe "j" 0, ChannelOp.start "j" 3,
   ChannelOp.report "j" 1 3 none, ChannelOp.report "j" 2 3 none]

/-- Witness for C9 (amended) on `monotoneOps` (reports 1 then 2, one
subscriber). -/
theorem progress_monotone_of_reports_monotone_witness :
    List.Chain' (fun a b : Int => a ≤ b)
      (progressCurrents "j" (runOps [] monotoneOps).2) ∧
    List.Chain' (fun a b : Int => a ≤ b)
      (progressCurrentsTo "j" 0 (runOps [] monotoneOps).2) :=
  progress_monotone_of_reports_monotone "j" 0 monotoneOps (by
    have h : reportedCurrents "j" monotoneOps = [1, 2] := by rfl
    rw [h]
    exact List.chain'_cons.mpr ⟨by omega, List.chain'_singleton 2⟩)

/-- C10: for a `jobId` absent from the registry, `reportProgress`,
`completeJob` and `errorJob` are silent no-ops — they return the registry
unchanged, create no job state and emit no event to any sink — while
`subscribe` and `startJob` do create job state for the unknown `jobId`. -/
theorem unknown_job_ops_noop (reg : Registry) (jobId : String) (sink : Nat)
    (cur tot total : Int) (fn : Option String) (msg : String)
    (habsent : lookupJob reg jobId = none) :
    reportProgressOp reg jobId cur tot fn = (reg, []) ∧
    completeJobOp reg jobId = (reg, []) ∧
    errorJobOp reg jobId msg = (reg, []) ∧
    lookupJob (subscribeOp reg jobId sink).1 jobId =
      some { total := 0, current := 0, status := .pending, listeners := [sink] } ∧
    lookupJob (startJobOp reg jobId total).1 jobId =
      some { total := total, current := 0, status := .running, listeners := [] } := by
  refine ⟨?_, ?_, ?_, ?_, ?_⟩
  · simp [reportProgressOp, habsent]
  · simp [completeJobOp, habsent]
  · simp [errorJobOp, habsent]
  · simp [subscribeOp, habsent, lookupJob_setJob]
  · simp [startJobOp, habsent, lookupJob_setJob]

/-- Witness for C10 at the empty registry and `jobId = "job1"`. -/
theorem unknown_job_ops_noop_witness :
    reportProgressOp [] "job1" 2 5 none = ([], []) ∧
    completeJobOp [] "job1" = ([], []) ∧
    errorJobOp [] "job1" "boom" = ([], []) ∧
    lookupJob (subscribeOp [] "job1" 7).1 "job1" =
      some { total := 0, current := 0, status := .pending, listeners := [7] } ∧
    lookupJob (startJobOp [] "job1" 4).1 "job1" =
      some { total := 4, current := 0, status := .running, listeners := [] } :=
  unknown_job_ops_noop [] "job1" 7 2 5 4 none "boom" rfl

end DitherWorks
